import Mathlib

/-!
# GoStarter: process registry and orchestration workflow

A shallow embedding of `src/GoStarter/main.go`.

* The package-level map `runningProcesses` is an association list from
  paths to process handles, with Go's three map operations (index with
  the `ok` flag, assignment, `delete`).
* The operating system is not modelled: the result of every system call
  (`cmd.Start`, `cmd.Process.Kill`, `cmd.Run`, `os.Remove`) is an argument
  of the function that makes the call.
* Every function threads a `World`: the registry, the goroutines that
  `ExecuteFile` has launched and that are still blocked in `cmd.Wait`,
  and the trace of calls and system effects made so far, oldest first.
  A call on which the program blocks (`time.Sleep`, `cmd.Run`) leaves two
  events, one when it is made and one when it returns.
* Every access to the map happens with `mutex` held, so a critical
  section is one atomic step on the `World`.
-/

namespace GoStarter

/-! ## Errors -/

/-- A Go `error` value: an error coming from the operating system, or an
error built by `fmt.Errorf` with the verb `%w`, which keeps the cause. -/
inductive GoError where
  | os (msg : String)
  | wrap (pre : String) (cause : GoError)
  deriving DecidableEq, Repr

/-- The method `Error()`: with `%w` the cause's text follows the prefix. -/
def GoError.Error : GoError → String
  | .os msg => msg
  | .wrap pre cause => pre ++ cause.Error

/-- The function `errors.Unwrap`. -/
def GoError.Unwrap : GoError → Option GoError
  | .os _ => none
  | .wrap _ cause => some cause

/-! ## Process handles and the registry -/

/-- The handle `*exec.Cmd` of a started process: the path given to
`exec.Command` and the process identifier assigned by `cmd.Start`. -/
structure Cmd where
  path : String
  pid : Nat
  deriving DecidableEq, Repr

/-- The type `map[string]*exec.Cmd` of `runningProcesses`. -/
abbrev Registry := List (String × Cmd)

/-- The map made by `make(map[string]*exec.Cmd)`. -/
def Registry.empty : Registry := []

/-- The handles stored under key `k`. -/
def Registry.entries (m : Registry) (k : String) : List Cmd :=
  (m.filter (fun e => decide (e.1 = k))).map Prod.snd

/-- The index expression `cmd, ok := m[k]`: `none` stands for `ok == false`. -/
def Registry.get (m : Registry) (k : String) : Option Cmd :=
  (m.find? (fun e => decide (e.1 = k))).map Prod.snd

/-- The builtin `delete(m, k)`. -/
def Registry.delete (m : Registry) (k : String) : Registry :=
  m.filter (fun e => !decide (e.1 = k))

/-- The assignment `m[k] = v`: an entry already stored under `k` is replaced. -/
def Registry.set (m : Registry) (k : String) (v : Cmd) : Registry :=
  (k, v) :: m.delete k

/-- A Go map holds at most one entry for a key. -/
def Registry.WF (m : Registry) : Prop := (m.map Prod.fst).Nodup

instance Registry.decidableWF (m : Registry) : Decidable m.WF :=
  inferInstanceAs (Decidable (m.map Prod.fst).Nodup)

/-! ## Traces and the world -/

/-- What the program does that can be observed from outside, and the calls
of the package's own functions. The two calls on which `main` blocks have an
event for the call and one for its return: `sleep` and `sleepReturn` for
`time.Sleep`, `runShell` and `runReturn` (with the error returned) for
`cmd.Run` on `sh -c command`. -/
inductive Event where
  | call (fn : String) (arg : String)
  | spawn (path : String)
  | kill (c : Cmd)
  | sleep (ns : Nat)
  | sleepReturn (ns : Nat)
  | runShell (command : String)
  | runReturn (command : String) (err : Option GoError)
  | remove (path : String)
  | print (s : String)
  | exit (code : Nat)
  deriving DecidableEq, Repr

/-- The goroutine launched by `ExecuteFile`: it captures `cmd` and
`filePath`. -/
structure Waiter where
  cmd : Cmd
  filePath : String
  deriving DecidableEq, Repr

/-- The state threaded through the program. -/
structure World where
  registry : Registry
  waiters : List Waiter
  trace : List Event
  deriving DecidableEq, Repr

/-- The state at program start: `runningProcesses` is empty. -/
def World.init : World := ⟨Registry.empty, [], []⟩

/-- Append events to the trace. -/
def World.emit (w : World) (es : List Event) : World :=
  { w with trace := w.trace ++ es }

/-! ## Constants -/

def exePath : String := "./Boltbase"
def dbPath : String := "./Boltbase.db"
def uv : String := "uv run main.py"

/-- The constant `time.Second`, in nanoseconds. -/
def Second : Nat := 1000000000

/-! ## The functions of main.go -/

/-- The function `ExecuteFile`. `startRes` is the result of `cmd.Start()`: an
error, or the identifier of the new process. -/
def ExecuteFile (startRes : Except GoError Nat) (w : World) (filePath : String) :
    Option GoError × World :=
  let w := w.emit [.call "ExecuteFile" filePath, .spawn filePath]
  match startRes with
  | .error err => (some (.wrap "failed to start file: " err), w)
  | .ok pid =>
    let cmd : Cmd := ⟨filePath, pid⟩
    let w := { w with registry := w.registry.set filePath cmd }
    let w := { w with waiters := w.waiters ++ [Waiter.mk cmd filePath] }
    let w := w.emit [.print ("Started process for " ++ filePath ++ " with PID: "
      ++ toString pid ++ "\n")]
    (none, w)

/-- The body of the goroutine of `ExecuteFile` once `cmd.Wait()` has
returned: it deletes, with the lock held, the entry stored under the
captured `filePath`. -/
def waiterExit (w : World) (g : Waiter) : World :=
  { w with registry := w.registry.delete g.filePath, waiters := w.waiters.erase g }

/-- The function `StopProcess`. `kill c` is the result of `c.Process.Kill()`:
`none` for a `nil` error. -/
def StopProcess (kill : Cmd → Option GoError) (w : World) (path : String) :
    Option GoError × World :=
  let w := w.emit [.call "StopProcess" path]
  match w.registry.get path with
  | none =>
    (none, w.emit [.print ("Process not found for path: " ++ path
      ++ ". It might have already terminated.\n")])
  | some cmd =>
    let w := w.emit [.kill cmd]
    match kill cmd with
    | some err => (some (.wrap "failed to kill process: " err), w)
    | none =>
      let w := { w with registry := w.registry.delete path }
      (none, w.emit [.print ("Killed process for " ++ path ++ "\n")])

/-- The function `ExecuteCommandSync`. `runRes` is the result of `cmd.Run()`
for `sh -c command`. -/
def ExecuteCommandSync (runRes : Option GoError) (w : World) (command : String) :
    Option GoError × World :=
  let w := w.emit [.call "ExecuteCommandSync" command, .runShell command,
    .runReturn command runRes]
  match runRes with
  | some err => (some (.wrap ("command failed: " ++ command ++ ": ") err), w)
  | none => (none, w)

/-- A goroutine of `ExecuteFile` gets the lock, if it is one that is still
pending. -/
def waiterStep (w : World) (g : Waiter) : World :=
  if g ∈ w.waiters then waiterExit w g else w

/-- The goroutines of `gs` that are still pending run to completion, in
order. This is what may happen between two statements of `main`. -/
def runWaiters (w : World) (gs : List Waiter) : World :=
  gs.foldl waiterStep w

/-- What `main` does with the error of a step that is not fatal: it prints
it and goes on. -/
def logError (what : String) (r : Option GoError) (w : World) : World :=
  match r with
  | some err => w.emit [.print (what ++ err.Error ++ "\n")]
  | none => w

/-- The events of `logError`: one printed line for an error, none for `nil`. -/
def logLines (what : String) (r : Option GoError) : List Event :=
  match r with
  | some err => [.print (what ++ err.Error ++ "\n")]
  | none => []

/-- The function `main`, from the state `w`. It returns the exit code of the
program and the final state. `startRes`, `runRes`, `kill` and `removeRes`
are the results of the system calls; `sched k` lists the goroutines whose
process has exited and that get the lock after the `k`-th statement that
follows the launch. -/
def main (startRes : Except GoError Nat) (runRes : Option GoError)
    (kill : Cmd → Option GoError) (removeRes : Option GoError)
    (sched : Nat → List Waiter) (w : World) : Nat × World :=
  match ExecuteFile startRes w exePath with
  | (some err, w) =>
    (1, w.emit [.print ("Failed to start: " ++ err.Error ++ "\n"), .exit 1])
  | (none, w) =>
    let w := runWaiters w (sched 0)
    let w := w.emit [.sleep (2 * Second), .sleepReturn (2 * Second)]
    let w := runWaiters w (sched 1)
    let w := w.emit [.print "Running test script...\n"]
    let r := ExecuteCommandSync runRes w uv
    let w := logError "Python script failed: " r.1 r.2
    let w := runWaiters w (sched 2)
    let r := StopProcess kill w exePath
    let w := logError "Failed to stop Boltbase process: " r.1 r.2
    let w := runWaiters w (sched 3)
    let w := w.emit [.remove dbPath]
    let w := logError "Failed to remove Boltbase.db: " removeRes w
    let w := w.emit [.print "All done.\n"]
    (0, w)

/-- The events of a trace that belong to a step of the workflow of `main`
whatever the results of the system calls: the calls of the functions of the
package with the system call each of them always makes, the delay and the
file removal. What is left out depends on a result (the kill signal, the
printed lines, `os.Exit`) or is the return of a call that is in. -/
def Event.isStep : Event → Bool
  | .call _ _ => true
  | .spawn _ => true
  | .sleep _ => true
  | .runShell _ => true
  | .remove _ => true
  | _ => false

/-- The workflow steps of a trace, in order. -/
def steps (t : List Event) : List Event := t.filter Event.isStep

/-- The events of a trace that are kill signals. -/
def kills (t : List Event) : List Cmd :=
  t.filterMap (fun e => match e with | .kill c => some c | _ => none)

/-! ## Steps on the registry -/

/-- The atomic steps that change the world: a call of `ExecuteFile` whose
`cmd.Start()` succeeds or fails, a call of `StopProcess`, and a goroutine of
`ExecuteFile` that observes the exit of its process. -/
inductive Step where
  | start (filePath : String) (pid : Nat)
  | startFail (filePath : String) (err : GoError)
  | stop (path : String) (kill : Cmd → Option GoError)
  | exited (g : Waiter)

/-- The registry key a step works on. -/
def Step.path : Step → String
  | .start filePath _ => filePath
  | .startFail filePath _ => filePath
  | .stop path _ => path
  | .exited g => g.filePath

/-- The world after a step. -/
def Step.run (w : World) : Step → World
  | .start filePath pid => (ExecuteFile (.ok pid) w filePath).2
  | .startFail filePath err => (ExecuteFile (.error err) w filePath).2
  | .stop path kill => (StopProcess kill w path).2
  | .exited g => waiterStep w g

/-- The world after a sequence of steps. -/
def runSteps (w : World) (ss : List Step) : World := ss.foldl Step.run w

/-- The steps that do not remove or replace the entry `c` stored under
`path`: the steps on another key, a failed launch, and a `StopProcess(path)`
whose kill signal fails. -/
def Step.Keeps (path : String) (c : Cmd) : Step → Prop
  | .start filePath _ => filePath ≠ path
  | .startFail _ _ => True
  | .stop p kill => p ≠ path ∨ (kill c).isSome = true
  | .exited g => g.filePath ≠ path

/-- What holds of the world from a successful launch of `c` at `path` until
the entry is removed or replaced: the registry holds exactly the entry `c`
for `path`, and the goroutine that waits for `c` is pending. -/
def Holds (path : String) (c : Cmd) (w : World) : Prop :=
  w.registry.entries path = [c] ∧ (⟨c, path⟩ : Waiter) ∈ w.waiters

/-! ## Results of system calls used in the examples -/

/-- Every kill signal is delivered. -/
def killOk : Cmd → Option GoError := fun _ => none

/-- No kill signal is delivered: the process has been waited for already. -/
def killFails : Cmd → Option GoError := fun _ => some (.os "os: process already finished")

/-- A registry with one entry. -/
def oneEntry (path : String) (pid : Nat) : World :=
  ⟨[(path, ⟨path, pid⟩)], [], []⟩

/-! ## The registry as a finite map -/

theorem Registry.get_eq_head_entries (m : Registry) (k : String) :
    m.get k = (m.entries k).head? := by
  induction m with
  | nil => rfl
  | cons e m ih =>
    by_cases h : e.1 = k
    · simp [Registry.get, Registry.entries, h]
    · simp [Registry.get, Registry.entries, h]

theorem Registry.get_eq_none_iff (m : Registry) (k : String) :
    m.get k = none ↔ m.entries k = [] := by
  rw [Registry.get_eq_head_entries]
  cases m.entries k <;> simp

theorem Registry.entries_delete_self (m : Registry) (k : String) :
    (m.delete k).entries k = [] := by
  simp [Registry.entries, Registry.delete, List.filter_filter]

theorem Registry.entries_delete_of_ne (m : Registry) {k j : String} (h : j ≠ k) :
    (m.delete k).entries j = m.entries j := by
  simp only [Registry.entries, Registry.delete, List.filter_filter]
  congr 1
  apply List.filter_congr
  intro e _
  by_cases hj : e.1 = j
  · have : e.1 ≠ k := fun hk => h (hj.symm.trans hk)
    simp [hj, this]
    exact fun hjk => h hjk
  · simp [hj]

theorem Registry.get_delete_self (m : Registry) (k : String) :
    (m.delete k).get k = none := by
  rw [Registry.get_eq_none_iff, Registry.entries_delete_self]

theorem Registry.get_delete_of_ne (m : Registry) {k j : String} (h : j ≠ k) :
    (m.delete k).get j = m.get j := by
  rw [Registry.get_eq_head_entries, Registry.get_eq_head_entries,
    Registry.entries_delete_of_ne m h]

theorem Registry.delete_eq_self_of_get_none (m : Registry) (k : String)
    (h : m.get k = none) : m.delete k = m := by
  rw [Registry.get_eq_none_iff] at h
  simp only [Registry.entries, List.map_eq_nil_iff, List.filter_eq_nil_iff] at h
  simp only [Registry.delete, List.filter_eq_self]
  intro e he
  simpa using h e he

theorem Registry.entries_set_self (m : Registry) (k : String) (v : Cmd) :
    (m.set k v).entries k = [v] := by
  have h := Registry.entries_delete_self m k
  simp only [Registry.entries] at h
  simp [Registry.set, Registry.entries, h]

theorem Registry.entries_set_of_ne (m : Registry) {k j : String} (v : Cmd) (h : j ≠ k) :
    (m.set k v).entries j = m.entries j := by
  have h2 := Registry.entries_delete_of_ne m h
  simp only [Registry.entries] at h2
  have : ¬ k = j := fun hk => h hk.symm
  simp [Registry.set, Registry.entries, this, h2]

theorem Registry.get_set_self (m : Registry) (k : String) (v : Cmd) :
    (m.set k v).get k = some v := by
  rw [Registry.get_eq_head_entries, Registry.entries_set_self]; rfl

theorem Registry.get_set_of_ne (m : Registry) {k j : String} (v : Cmd) (h : j ≠ k) :
    (m.set k v).get j = m.get j := by
  rw [Registry.get_eq_head_entries, Registry.get_eq_head_entries,
    Registry.entries_set_of_ne m v h]

theorem Registry.WF_delete (m : Registry) (k : String) (h : m.WF) : (m.delete k).WF := by
  unfold Registry.WF at *
  exact (List.Sublist.map Prod.fst (List.filter_sublist m)).nodup h

theorem Registry.not_mem_keys_delete (m : Registry) (k : String) :
    k ∉ (m.delete k).map Prod.fst := by
  simp [Registry.delete]

theorem Registry.WF_set (m : Registry) (k : String) (v : Cmd) (h : m.WF) :
    (m.set k v).WF := by
  have h1 := Registry.WF_delete m k h
  have h2 := Registry.not_mem_keys_delete m k
  unfold Registry.WF at *
  simp only [Registry.set, List.map_cons, List.nodup_cons]
  exact ⟨h2, h1⟩

theorem Registry.get_eq_none_iff_not_mem (m : Registry) (k : String) :
    m.get k = none ↔ ∀ v, (k, v) ∉ m := by
  rw [Registry.get_eq_none_iff]
  simp only [Registry.entries, List.map_eq_nil_iff, List.filter_eq_nil_iff]
  constructor
  · intro h v hv
    simpa using h (k, v) hv
  · intro h e he
    by_cases hk : e.1 = k
    · exact absurd (hk ▸ he) (h e.2)
    · simpa using hk

theorem Registry.get_of_mem (m : Registry) (k : String) (v : Cmd) (hwf : m.WF)
    (h : (k, v) ∈ m) : m.get k = some v := by
  induction m with
  | nil => simp at h
  | cons e m ih =>
    unfold Registry.WF at hwf
    rw [List.map_cons, List.nodup_cons] at hwf
    rcases List.mem_cons.1 h with he | hm
    · subst he
      simp [Registry.get]
    · have hk : e.1 ≠ k := by
        intro hek
        apply hwf.1
        rw [hek]
        exact List.mem_map_of_mem Prod.fst hm
      have := ih hwf.2 hm
      simpa [Registry.get, hk] using this

/-! ## Traces -/

theorem kills_append (t u : List Event) : kills (t ++ u) = kills t ++ kills u := by
  simp [kills, List.filterMap_append]

theorem steps_append (t u : List Event) : steps (t ++ u) = steps t ++ steps u := by
  simp [steps]

/-! ## StopProcess -/

theorem StopProcess_of_get_none (kill : Cmd → Option GoError) (w : World) (path : String)
    (h : w.registry.get path = none) :
    StopProcess kill w path =
      (none, w.emit [.call "StopProcess" path,
        .print ("Process not found for path: " ++ path
          ++ ". It might have already terminated.\n")]) := by
  have h2 : (w.emit [.call "StopProcess" path]).registry.get path = none := h
  simp only [StopProcess, h2]
  simp [World.emit]

theorem StopProcess_of_kill_fails (kill : Cmd → Option GoError) (w : World) (path : String)
    (c : Cmd) (err : GoError) (h : w.registry.get path = some c) (hk : kill c = some err) :
    StopProcess kill w path =
      (some (.wrap "failed to kill process: " err),
        w.emit [.call "StopProcess" path, .kill c]) := by
  have h2 : (w.emit [.call "StopProcess" path]).registry.get path = some c := h
  simp only [StopProcess, h2, hk]
  simp [World.emit]

theorem StopProcess_of_kill_ok (kill : Cmd → Option GoError) (w : World) (path : String)
    (c : Cmd) (h : w.registry.get path = some c) (hk : kill c = none) :
    StopProcess kill w path =
      (none, World.emit { w with registry := w.registry.delete path }
        [.call "StopProcess" path, .kill c, .print ("Killed process for " ++ path ++ "\n")]) := by
  have h2 : (w.emit [.call "StopProcess" path]).registry.get path = some c := h
  simp only [StopProcess, h2, hk]
  simp [World.emit]

/-- After a call of `StopProcess` that returns `nil`, the registry holds no
entry for the path. -/
theorem StopProcess_ok_get (kill : Cmd → Option GoError) (w : World) (path : String)
    (h : (StopProcess kill w path).1 = none) :
    (StopProcess kill w path).2.registry.get path = none := by
  cases hg : w.registry.get path with
  | none =>
    rw [StopProcess_of_get_none kill w path hg]
    exact hg
  | some c =>
    cases hk : kill c with
    | some err =>
      rw [StopProcess_of_kill_fails kill w path c err hg hk] at h
      simp at h
    | none =>
      rw [StopProcess_of_kill_ok kill w path c hg hk]
      exact Registry.get_delete_self _ _


theorem StopProcess_waiters (kill : Cmd → Option GoError) (w : World) (path : String) :
    (StopProcess kill w path).2.waiters = w.waiters := by
  cases hg : w.registry.get path with
  | none => rw [StopProcess_of_get_none kill w path hg]; rfl
  | some c =>
    cases hk : kill c with
    | some err => rw [StopProcess_of_kill_fails kill w path c err hg hk]; rfl
    | none => rw [StopProcess_of_kill_ok kill w path c hg hk]; rfl

theorem StopProcess_registry (kill : Cmd → Option GoError) (w : World) (path : String) :
    (StopProcess kill w path).2.registry = w.registry ∨
    (StopProcess kill w path).2.registry = w.registry.delete path := by
  cases hg : w.registry.get path with
  | none => rw [StopProcess_of_get_none kill w path hg]; exact Or.inl rfl
  | some c =>
    cases hk : kill c with
    | some err => rw [StopProcess_of_kill_fails kill w path c err hg hk]; exact Or.inl rfl
    | none => rw [StopProcess_of_kill_ok kill w path c hg hk]; exact Or.inr rfl

/-! ## ExecuteFile and the goroutine -/

theorem ExecuteFile_ok (w : World) (filePath : String) (pid : Nat) :
    ExecuteFile (.ok pid) w filePath =
      (none, ⟨w.registry.set filePath ⟨filePath, pid⟩,
        w.waiters ++ [⟨⟨filePath, pid⟩, filePath⟩],
        w.trace ++ [.call "ExecuteFile" filePath, .spawn filePath,
          .print ("Started process for " ++ filePath ++ " with PID: "
            ++ toString pid ++ "\n")]⟩) := by
  simp [ExecuteFile, World.emit]

theorem ExecuteFile_error (w : World) (filePath : String) (err : GoError) :
    ExecuteFile (.error err) w filePath =
      (some (.wrap "failed to start file: " err),
        w.emit [.call "ExecuteFile" filePath, .spawn filePath]) := rfl

theorem waiterStep_registry (w : World) (g : Waiter) :
    (waiterStep w g).registry = w.registry ∨
    (waiterStep w g).registry = w.registry.delete g.filePath := by
  unfold waiterStep
  split
  · exact Or.inr rfl
  · exact Or.inl rfl

theorem waiterStep_trace (w : World) (g : Waiter) : (waiterStep w g).trace = w.trace := by
  unfold waiterStep
  split <;> rfl

theorem runWaiters_trace (w : World) (gs : List Waiter) :
    (runWaiters w gs).trace = w.trace := by
  induction gs generalizing w with
  | nil => rfl
  | cons g gs ih =>
    show (runWaiters (waiterStep w g) gs).trace = w.trace
    rw [ih, waiterStep_trace]

/-! ## Steps that keep an entry -/

theorem Holds_step (path : String) (c : Cmd) (w : World) (s : Step)
    (hw : Holds path c w) (hs : s.Keeps path c) : Holds path c (s.run w) := by
  obtain ⟨he, hg⟩ := hw
  cases s with
  | start filePath pid =>
    have hne : path ≠ filePath := fun h => hs h.symm
    simp only [Step.run, ExecuteFile_ok]
    exact ⟨by rw [Registry.entries_set_of_ne _ _ hne]; exact he,
      List.mem_append_left _ hg⟩
  | startFail filePath err =>
    simp only [Step.run, ExecuteFile_error]
    exact ⟨he, hg⟩
  | stop p kill =>
    refine ⟨?_, by simp only [Step.run, StopProcess_waiters]; exact hg⟩
    show (StopProcess kill w p).2.registry.entries path = [c]
    rcases hs with hp | hk
    · rcases StopProcess_registry kill w p with h | h
      · rw [h]; exact he
      · rw [h, Registry.entries_delete_of_ne _ (fun h2 => hp h2.symm)]; exact he
    · have hget : w.registry.get path = some c := by
        rw [Registry.get_eq_head_entries, he]; rfl
      cases hkc : kill c with
      | none => rw [hkc] at hk; simp at hk
      | some err =>
        by_cases hp : p = path
        · subst hp
          rw [StopProcess_of_kill_fails kill w p c err hget hkc]
          exact he
        · rcases StopProcess_registry kill w p with h | h
          · rw [h]; exact he
          · rw [h, Registry.entries_delete_of_ne _ (fun h2 => hp h2.symm)]; exact he
  | exited g =>
    have hne : path ≠ g.filePath := fun h => hs h.symm
    constructor
    · show (waiterStep w g).registry.entries path = [c]
      rcases waiterStep_registry w g with h | h
      · rw [h]; exact he
      · rw [h, Registry.entries_delete_of_ne _ hne]; exact he
    · show (⟨c, path⟩ : Waiter) ∈ (waiterStep w g).waiters
      unfold waiterStep
      split
      · have hgne : (⟨c, path⟩ : Waiter) ≠ g := by
          intro h; apply hne; rw [← h]
        exact (List.mem_erase_of_ne hgne).2 hg
      · exact hg

theorem Holds_runSteps (path : String) (c : Cmd) (ss : List Step) (w : World)
    (hw : Holds path c w) (hs : ∀ s ∈ ss, s.Keeps path c) :
    Holds path c (runSteps w ss) := by
  induction ss generalizing w with
  | nil => exact hw
  | cons s ss ih =>
    show Holds path c (runSteps (s.run w) ss)
    exact ih _ (Holds_step path c w s hw (hs s (List.mem_cons_self _ _)))
      (fun t ht => hs t (List.mem_cons_of_mem _ ht))

/-! ## The trace of main -/

theorem steps_emit (w : World) (es : List Event) :
    steps (w.emit es).trace = steps w.trace ++ steps es :=
  steps_append _ _

theorem ExecuteCommandSync_trace (runRes : Option GoError) (w : World) (command : String) :
    (ExecuteCommandSync runRes w command).2.trace
      = w.trace ++ [.call "ExecuteCommandSync" command, .runShell command,
        .runReturn command runRes] := by
  cases runRes <;> rfl

theorem steps_logError (what : String) (r : Option GoError) (w : World) :
    steps (logError what r w).trace = steps w.trace := by
  cases r with
  | none => rfl
  | some err => simp [logError, World.emit, steps, Event.isStep]

theorem steps_StopProcess (kill : Cmd → Option GoError) (w : World) (path : String) :
    steps (StopProcess kill w path).2.trace = steps w.trace ++ [.call "StopProcess" path] := by
  cases hg : w.registry.get path with
  | none =>
    rw [StopProcess_of_get_none kill w path hg]
    simp [World.emit, steps, Event.isStep]
  | some c =>
    cases hk : kill c with
    | some err =>
      rw [StopProcess_of_kill_fails kill w path c err hg hk]
      simp [World.emit, steps, Event.isStep]
    | none =>
      rw [StopProcess_of_kill_ok kill w path c hg hk]
      simp [World.emit, steps, Event.isStep]

/-- The workflow steps of a run of `main` whose launch succeeds. -/
theorem steps_main_ok (pid : Nat) (runRes : Option GoError) (kill : Cmd → Option GoError)
    (removeRes : Option GoError) (sched : Nat → List Waiter) (w : World) :
    steps (main (.ok pid) runRes kill removeRes sched w).2.trace
      = steps w.trace ++ [.call "ExecuteFile" exePath, .spawn exePath, .sleep (2 * Second),
          .call "ExecuteCommandSync" uv, .runShell uv, .call "StopProcess" exePath,
          .remove dbPath] := by
  simp only [main, ExecuteFile_ok, steps_emit, steps_logError, steps_StopProcess,
    runWaiters_trace, ExecuteCommandSync_trace]
  simp [World.emit, runWaiters_trace, steps, Event.isStep]

theorem count_eq_count_steps (e : Event) (t : List Event) (h : e.isStep = true) :
    t.count e = (steps t).count e :=
  (List.count_filter h).symm

/-! ## The registry while main runs -/

theorem get_waiterStep (w : World) (g : Waiter) (k : String) :
    (waiterStep w g).registry.get k = w.registry.get k ∨
    (waiterStep w g).registry.get k = none := by
  rcases waiterStep_registry w g with h | h
  · exact Or.inl (by rw [h])
  · by_cases hk : k = g.filePath
    · right
      rw [h, hk]
      exact Registry.get_delete_self _ _
    · left
      rw [h]
      exact Registry.get_delete_of_ne _ hk

theorem get_runWaiters (w : World) (gs : List Waiter) (k : String) :
    (runWaiters w gs).registry.get k = w.registry.get k ∨
    (runWaiters w gs).registry.get k = none := by
  induction gs generalizing w with
  | nil => exact Or.inl rfl
  | cons g gs ih =>
    show (runWaiters (waiterStep w g) gs).registry.get k = w.registry.get k ∨
      (runWaiters (waiterStep w g) gs).registry.get k = none
    rcases ih (waiterStep w g) with h | h
    · rcases get_waiterStep w g k with h2 | h2
      · exact Or.inl (h.trans h2)
      · exact Or.inr (h.trans h2)
    · exact Or.inr h

theorem logError_registry (what : String) (r : Option GoError) (w : World) :
    (logError what r w).registry = w.registry := by
  cases r <;> rfl

theorem ExecuteCommandSync_registry (runRes : Option GoError) (w : World)
    (command : String) : (ExecuteCommandSync runRes w command).2.registry = w.registry := by
  cases runRes <;> rfl

theorem logError_trace (what : String) (r : Option GoError) (w : World) :
    (logError what r w).trace = w.trace ++ logLines what r := by
  cases r with
  | none => simp [logError, logLines]
  | some err => rfl

theorem ExecuteCommandSync_error (runRes : Option GoError) (w : World) (command : String) :
    (ExecuteCommandSync runRes w command).1
      = runRes.map (GoError.wrap ("command failed: " ++ command ++ ": ")) := by
  cases runRes <;> rfl

/-- The trace of a run of `main` whose launch succeeds. -/
theorem main_ok_trace (pid : Nat) (runRes : Option GoError)
    (kill : Cmd → Option GoError) (removeRes : Option GoError)
    (sched : Nat → List Waiter) (w : World) :
    ∃ stopEvs : List Event,
      (main (.ok pid) runRes kill removeRes sched w).2.trace
        = w.trace
          ++ [.call "ExecuteFile" exePath, .spawn exePath,
              .print ("Started process for " ++ exePath ++ " with PID: "
                ++ toString pid ++ "\n")]
          ++ [.sleep 2000000000, .sleepReturn 2000000000]
          ++ [.print "Running test script...\n", .call "ExecuteCommandSync" uv,
              .runShell uv, .runReturn uv runRes]
          ++ logLines "Python script failed: "
              (runRes.map (GoError.wrap ("command failed: " ++ uv ++ ": ")))
          ++ .call "StopProcess" exePath :: stopEvs
          ++ [.remove dbPath]
          ++ logLines "Failed to remove Boltbase.db: " removeRes
          ++ [.print "All done.\n"] ∧
      (stopEvs = [.print ("Process not found for path: " ++ exePath
          ++ ". It might have already terminated.\n")] ∨
        (∃ err, kill ⟨exePath, pid⟩ = some err ∧
          stopEvs = [.kill ⟨exePath, pid⟩, .print ("Failed to stop Boltbase process: "
            ++ GoError.Error (.wrap "failed to kill process: " err) ++ "\n")]) ∨
        (kill ⟨exePath, pid⟩ = none ∧
          stopEvs = [.kill ⟨exePath, pid⟩,
            .print ("Killed process for " ++ exePath ++ "\n")])) := by
  -- the world when `StopProcess` is called
  obtain ⟨W, hW⟩ : ∃ W : World, W = runWaiters (logError "Python script failed: "
      (ExecuteCommandSync runRes ((runWaiters ((runWaiters
        (ExecuteFile (.ok pid) w exePath).2 (sched 0)).emit
          [.sleep (2 * Second), .sleepReturn (2 * Second)]) (sched 1)).emit
            [.print "Running test script...\n"]) uv).1
      (ExecuteCommandSync runRes ((runWaiters ((runWaiters
        (ExecuteFile (.ok pid) w exePath).2 (sched 0)).emit
          [.sleep (2 * Second), .sleepReturn (2 * Second)]) (sched 1)).emit
            [.print "Running test script...\n"]) uv).2) (sched 2) := ⟨_, rfl⟩
  have hmain : (main (.ok pid) runRes kill removeRes sched w).2
      = World.emit (logError "Failed to remove Boltbase.db: " removeRes
          (World.emit (runWaiters (logError "Failed to stop Boltbase process: "
            (StopProcess kill W exePath).1 (StopProcess kill W exePath).2) (sched 3))
            [.remove dbPath])) [.print "All done.\n"] := by
    rw [hW]; rfl
  have htrace : W.trace = w.trace
      ++ [.call "ExecuteFile" exePath, .spawn exePath,
          .print ("Started process for " ++ exePath ++ " with PID: "
            ++ toString pid ++ "\n")]
      ++ [.sleep 2000000000, .sleepReturn 2000000000]
      ++ [.print "Running test script...\n", .call "ExecuteCommandSync" uv,
          .runShell uv, .runReturn uv runRes]
      ++ logLines "Python script failed: "
          (runRes.map (GoError.wrap ("command failed: " ++ uv ++ ": "))) := by
    rw [hW, runWaiters_trace, logError_trace, ExecuteCommandSync_trace,
      ExecuteCommandSync_error]
    simp [World.emit, runWaiters_trace, ExecuteFile_ok, Second]
  have hget : W.registry.get exePath = none ∨ W.registry.get exePath = some ⟨exePath, pid⟩ := by
    have h0 : (ExecuteFile (.ok pid) w exePath).2.registry.get exePath
        = some ⟨exePath, pid⟩ := by
      rw [ExecuteFile_ok]; exact Registry.get_set_self _ _ _
    have h1 := get_runWaiters (ExecuteFile (.ok pid) w exePath).2 (sched 0) exePath
    have h2 := get_runWaiters ((runWaiters (ExecuteFile (.ok pid) w exePath).2
      (sched 0)).emit [.sleep (2 * Second), .sleepReturn (2 * Second)]) (sched 1) exePath
    have h3 := get_runWaiters (logError "Python script failed: "
      (ExecuteCommandSync runRes ((runWaiters ((runWaiters
        (ExecuteFile (.ok pid) w exePath).2 (sched 0)).emit
          [.sleep (2 * Second), .sleepReturn (2 * Second)]) (sched 1)).emit
            [.print "Running test script...\n"]) uv).1
      (ExecuteCommandSync runRes ((runWaiters ((runWaiters
        (ExecuteFile (.ok pid) w exePath).2 (sched 0)).emit
          [.sleep (2 * Second), .sleepReturn (2 * Second)]) (sched 1)).emit
            [.print "Running test script...\n"]) uv).2) (sched 2) exePath
    rw [← hW, logError_registry, ExecuteCommandSync_registry] at h3
    simp only [World.emit] at h1 h2 h3
    rcases h3 with h3 | h3
    · rcases h2 with h2 | h2
      · rcases h1 with h1 | h1
        · exact Or.inr (h3.trans (h2.trans (h1.trans h0)))
        · exact Or.inl (h3.trans (h2.trans h1))
      · exact Or.inl (h3.trans h2)
    · exact Or.inl h3
  rcases hget with hg | hg
  · refine ⟨_, ?_, Or.inl rfl⟩
    rw [hmain, StopProcess_of_get_none kill W exePath hg]
    simp [World.emit, logError_trace, runWaiters_trace, htrace, logLines]
  · cases hk : kill ⟨exePath, pid⟩ with
    | some err =>
      refine ⟨_, ?_, Or.inr (Or.inl ⟨err, rfl, rfl⟩)⟩
      rw [hmain, StopProcess_of_kill_fails kill W exePath _ err hg hk]
      simp [World.emit, logError_trace, runWaiters_trace, htrace, logLines]
    | none =>
      refine ⟨_, ?_, Or.inr (Or.inr ⟨rfl, rfl⟩)⟩
      rw [hmain, StopProcess_of_kill_ok kill W exePath _ hg hk]
      simp [World.emit, logError_trace, runWaiters_trace, htrace, logLines]

/-! ## The claims on StopProcess -/

/-- C1: for every registry state and every path without an entry,
`StopProcess(path)` returns `nil`, sends no kill signal (all it does is
print the "not found" line) and leaves the registry, and the pending
goroutines, as they were. -/
theorem C1_StopProcess_unregistered (kill : Cmd → Option GoError) (w : World)
    (path : String) (h : w.registry.get path = none) :
    (StopProcess kill w path).1 = none ∧
    (StopProcess kill w path).2.trace = w.trace ++ [.call "StopProcess" path,
      .print ("Process not found for path: " ++ path
        ++ ". It might have already terminated.\n")] ∧
    kills (StopProcess kill w path).2.trace = kills w.trace ∧
    (StopProcess kill w path).2.registry = w.registry ∧
    (StopProcess kill w path).2.waiters = w.waiters := by
  rw [StopProcess_of_get_none kill w path h]
  simp [World.emit, kills]

theorem C1_StopProcess_unregistered_witness :
    World.init.registry.get exePath = none ∧
    (StopProcess killFails World.init exePath).1 = none ∧
    (StopProcess killOk (oneEntry dbPath 3) exePath).2.registry = [(dbPath, ⟨dbPath, 3⟩)] :=
  ⟨rfl, (C1_StopProcess_unregistered killFails World.init exePath rfl).1,
    (C1_StopProcess_unregistered killOk (oneEntry dbPath 3) exePath (by decide)).2.2.2.1⟩

/-- C6: for every registry state and every path with an entry `c`,
`StopProcess(path)` sends the kill signal to `c` and to no other process.
If the signal fails with `err`, the call returns an error that wraps `err`
and the registry is unchanged, the entry still there. If the signal
succeeds, the call returns `nil` and the registry is the original one with
the entry for `path` deleted: no entry for `path`, every other key as
before. -/
theorem C6_StopProcess_registered (kill : Cmd → Option GoError) (w : World)
    (path : String) (c : Cmd) (h : w.registry.get path = some c) :
    kills (StopProcess kill w path).2.trace = kills w.trace ++ [c] ∧
    (∀ err, kill c = some err →
      (StopProcess kill w path).1 = some (.wrap "failed to kill process: " err) ∧
      (StopProcess kill w path).1.bind GoError.Unwrap = some err ∧
      (StopProcess kill w path).2.registry = w.registry ∧
      (StopProcess kill w path).2.registry.get path = some c) ∧
    (kill c = none →
      (StopProcess kill w path).1 = none ∧
      (StopProcess kill w path).2.registry = w.registry.delete path ∧
      (StopProcess kill w path).2.registry.entries path = [] ∧
      ∀ j, j ≠ path →
        (StopProcess kill w path).2.registry.entries j = w.registry.entries j) := by
  refine ⟨?_, ?_, ?_⟩
  · cases hk : kill c with
    | some err =>
      rw [StopProcess_of_kill_fails kill w path c err h hk]
      simp [World.emit, kills_append, kills]
    | none =>
      rw [StopProcess_of_kill_ok kill w path c h hk]
      simp [World.emit, kills_append, kills]
  · intro err hk
    rw [StopProcess_of_kill_fails kill w path c err h hk]
    exact ⟨rfl, rfl, rfl, h⟩
  · intro hk
    rw [StopProcess_of_kill_ok kill w path c h hk]
    exact ⟨rfl, rfl, Registry.entries_delete_self _ _,
      fun j hj => Registry.entries_delete_of_ne _ hj⟩

theorem C6_StopProcess_registered_witness :
    (oneEntry exePath 7).registry.get exePath = some ⟨exePath, 7⟩ ∧
    (StopProcess killFails (oneEntry exePath 7) exePath).2.registry
      = (oneEntry exePath 7).registry ∧
    (StopProcess killOk (oneEntry exePath 7) exePath).2.registry.entries exePath = [] :=
  ⟨by decide,
    ((C6_StopProcess_registered killFails (oneEntry exePath 7) exePath ⟨exePath, 7⟩
      (by decide)).2.1 _ rfl).2.2.1,
    ((C6_StopProcess_registered killOk (oneEntry exePath 7) exePath ⟨exePath, 7⟩
      (by decide)).2.2 rfl).2.2.1⟩

/-- C3 as stated fails when the kill signal of the first call fails: the
first call returns an error and keeps the entry, so the second call finds
the entry, sends the kill signal again and, here, fails again. -/
theorem C3_second_stop_finds_entry :
    (StopProcess killFails (oneEntry exePath 7) exePath).1
      = some (.wrap "failed to kill process: " (.os "os: process already finished")) ∧
    (StopProcess killFails
      (StopProcess killFails (oneEntry exePath 7) exePath).2 exePath).1 ≠ none ∧
    kills (StopProcess killFails (oneEntry exePath 7) exePath).2.trace
      = [⟨exePath, 7⟩] ∧
    kills (StopProcess killFails
      (StopProcess killFails (oneEntry exePath 7) exePath).2 exePath).2.trace
      = [⟨exePath, 7⟩, ⟨exePath, 7⟩] := by
  decide

/-- C3, amended: for every registry state and every path, when a call of
`StopProcess(path)` returns `nil`, a second call in succession, whatever
the kill signals would do, takes the "not found" branch: it returns `nil`,
prints the "not found" line, sends no kill signal and leaves the registry
as the first call left it. -/
theorem C3_StopProcess_twice (k1 k2 : Cmd → Option GoError) (w : World) (path : String)
    (h : (StopProcess k1 w path).1 = none) :
    (StopProcess k2 (StopProcess k1 w path).2 path).1 = none ∧
    (StopProcess k2 (StopProcess k1 w path).2 path).2.trace
      = (StopProcess k1 w path).2.trace ++ [.call "StopProcess" path,
        .print ("Process not found for path: " ++ path
          ++ ". It might have already terminated.\n")] ∧
    kills (StopProcess k2 (StopProcess k1 w path).2 path).2.trace
      = kills (StopProcess k1 w path).2.trace ∧
    (StopProcess k2 (StopProcess k1 w path).2 path).2.registry
      = (StopProcess k1 w path).2.registry := by
  rw [StopProcess_of_get_none k2 _ path (StopProcess_ok_get k1 w path h)]
  simp [World.emit, kills]

/-- C3, amended, at a registry with one entry whose kill signal succeeds. -/
theorem C3_StopProcess_twice_witness :
    (StopProcess killOk (oneEntry exePath 7) exePath).1 = none ∧
    (StopProcess killFails (StopProcess killOk (oneEntry exePath 7) exePath).2 exePath).1
      = none ∧
    kills (StopProcess killFails
      (StopProcess killOk (oneEntry exePath 7) exePath).2 exePath).2.trace
      = [⟨exePath, 7⟩] :=
  ⟨by decide,
    (C3_StopProcess_twice killOk killFails (oneEntry exePath 7) exePath (by decide)).1,
    (C3_StopProcess_twice killOk killFails (oneEntry exePath 7) exePath
      (by decide)).2.2.1.trans (by decide)⟩

/-- C7 as stated fails when the kill signal fails: the entry is looked up
but not removed, and the registry still holds it after the call. -/
theorem C7_entry_kept_when_kill_fails :
    (dbPath, (⟨dbPath, 11⟩ : Cmd)) ∈ (oneEntry dbPath 11).registry ∧
    (dbPath, (⟨dbPath, 11⟩ : Cmd))
      ∈ (StopProcess killFails (oneEntry dbPath 11) dbPath).2.registry ∧
    (StopProcess killFails (oneEntry dbPath 11) dbPath).2.registry.get dbPath
      = some ⟨dbPath, 11⟩ := by
  decide

/-- C7, amended: in `StopProcess`, for every registry (a map: no key twice)
and every path with an entry `c`, the lookup yields `c`, which is the
handle that gets the kill signal; when the signal succeeds the entry is
removed, so that the registry holds no entry for `path` after the call and
every other entry is kept; when the signal fails the registry is unchanged.
For every path without an entry the call reports "not found" and returns
`nil`. -/
theorem C7_lookup_and_remove (kill : Cmd → Option GoError) (w : World) (path : String) :
    (∀ c, w.registry.WF → (path, c) ∈ w.registry →
      w.registry.get path = some c ∧
      kills (StopProcess kill w path).2.trace = kills w.trace ++ [c] ∧
      (kill c = none →
        (∀ c2, (path, c2) ∉ (StopProcess kill w path).2.registry) ∧
        ∀ j c2, j ≠ path →
          ((j, c2) ∈ (StopProcess kill w path).2.registry ↔ (j, c2) ∈ w.registry)) ∧
      (kill c ≠ none → (StopProcess kill w path).2.registry = w.registry)) ∧
    ((∀ c, (path, c) ∉ w.registry) →
      w.registry.get path = none ∧
      (StopProcess kill w path).1 = none ∧
      (StopProcess kill w path).2.trace = w.trace ++ [.call "StopProcess" path,
        .print ("Process not found for path: " ++ path
          ++ ". It might have already terminated.\n")]) := by
  constructor
  · intro c hwf hc
    have hg := Registry.get_of_mem w.registry path c hwf hc
    refine ⟨hg, ?_, ?_, ?_⟩
    · cases hk : kill c with
      | some err =>
        rw [StopProcess_of_kill_fails kill w path c err hg hk]
        simp [World.emit, kills_append, kills]
      | none =>
        rw [StopProcess_of_kill_ok kill w path c hg hk]
        simp [World.emit, kills_append, kills]
    · intro hk
      rw [StopProcess_of_kill_ok kill w path c hg hk]
      constructor
      · exact (Registry.get_eq_none_iff_not_mem _ _).1 (Registry.get_delete_self _ _)
      · intro j c2 hj
        simp [World.emit, Registry.delete, hj]
    · intro hk
      cases hk2 : kill c with
      | some err => rw [StopProcess_of_kill_fails kill w path c err hg hk2]; rfl
      | none => exact absurd hk2 hk
  · intro hno
    have hg := (Registry.get_eq_none_iff_not_mem _ _).2 hno
    rw [StopProcess_of_get_none kill w path hg]
    exact ⟨hg, rfl, rfl⟩

/-- C7, amended, at a registry with one entry, and at the empty registry. -/
theorem C7_lookup_and_remove_witness :
    (oneEntry dbPath 11).registry.get dbPath = some ⟨dbPath, 11⟩ ∧
    (∀ c2, (dbPath, c2) ∉ (StopProcess killOk (oneEntry dbPath 11) dbPath).2.registry) ∧
    (StopProcess killOk World.init dbPath).1 = none :=
  ⟨((C7_lookup_and_remove killOk (oneEntry dbPath 11) dbPath).1 ⟨dbPath, 11⟩
      (by decide) (by decide)).1,
    (((C7_lookup_and_remove killOk (oneEntry dbPath 11) dbPath).1 ⟨dbPath, 11⟩
      (by decide) (by decide)).2.2.1 rfl).1,
    ((C7_lookup_and_remove killOk World.init dbPath).2
      (fun _ h => absurd h (List.not_mem_nil _))).2.1⟩

/-! ## The claims on the life of a registry entry -/

/-- C2 as stated fails twice. A `StopProcess(path)` whose kill signal fails
leaves the entry in the registry. And a step that is neither
`StopProcess(path)` nor the exit of the started process removes the entry:
the goroutine of an earlier process started at the same path, stopped
before the launch, gets the lock after the launch. -/
theorem C2_entry_after_stop_and_lost_to_earlier_exit :
    World.init.registry.get exePath = none ∧
    (StopProcess killFails (ExecuteFile (.ok 7) World.init exePath).2
      exePath).2.registry.entries exePath = [⟨exePath, 7⟩] ∧
    (StopProcess killOk (ExecuteFile (.ok 1) World.init exePath).2
      exePath).2.registry.get exePath = none ∧
    (ExecuteFile (.ok 2) (StopProcess killOk (ExecuteFile (.ok 1) World.init exePath).2
      exePath).2 exePath).2.registry.entries exePath = [⟨exePath, 2⟩] ∧
    (⟨⟨exePath, 1⟩, exePath⟩ : Waiter) ∈
      (ExecuteFile (.ok 2) (StopProcess killOk (ExecuteFile (.ok 1) World.init exePath).2
        exePath).2 exePath).2.waiters ∧
    (Step.run (ExecuteFile (.ok 2) (StopProcess killOk
      (ExecuteFile (.ok 1) World.init exePath).2 exePath).2 exePath).2
      (.exited ⟨⟨exePath, 1⟩, exePath⟩)).registry.entries exePath = [] := by
  decide

/-- C2, amended: starting from a registry with no entry for `path`, after a
successful `ExecuteFile(path)` the registry holds exactly one entry for
`path`, the started handle, and keeps holding it across every sequence of
steps that are steps on other paths, failed launches, or calls of
`StopProcess(path)` whose kill signal fails; the goroutine waiting for the
started process stays pending. From there, a further successful
`ExecuteFile(path)` leaves exactly one entry, the new handle; and after a
`StopProcess(path)` that returns `nil`, or after the goroutine has observed
the exit of the started process, the registry holds no entry for `path`. -/
theorem C2_registry_entry_lifecycle (w : World) (path : String) (pid : Nat)
    (h0 : w.registry.get path = none) :
    w.registry.entries path = [] ∧
    (ExecuteFile (.ok pid) w path).1 = none ∧
    (ExecuteFile (.ok pid) w path).2.registry.entries path = [⟨path, pid⟩] ∧
    ∀ ss : List Step, (∀ s ∈ ss, s.Keeps path ⟨path, pid⟩) →
      (runSteps (ExecuteFile (.ok pid) w path).2 ss).registry.entries path
        = [⟨path, pid⟩] ∧
      (⟨⟨path, pid⟩, path⟩ : Waiter) ∈ (runSteps (ExecuteFile (.ok pid) w path).2 ss).waiters ∧
      (∀ pid2, (ExecuteFile (.ok pid2) (runSteps (ExecuteFile (.ok pid) w path).2 ss)
        path).2.registry.entries path = [⟨path, pid2⟩]) ∧
      (∀ kill, (StopProcess kill (runSteps (ExecuteFile (.ok pid) w path).2 ss) path).1 = none →
        (StopProcess kill (runSteps (ExecuteFile (.ok pid) w path).2 ss)
          path).2.registry.entries path = []) ∧
      (waiterStep (runSteps (ExecuteFile (.ok pid) w path).2 ss)
        ⟨⟨path, pid⟩, path⟩).registry.entries path = [] := by
  have hstart : Holds path ⟨path, pid⟩ (ExecuteFile (.ok pid) w path).2 := by
    rw [ExecuteFile_ok]
    exact ⟨Registry.entries_set_self _ _ _, by simp⟩
  refine ⟨(Registry.get_eq_none_iff _ _).1 h0, by rw [ExecuteFile_ok], hstart.1, ?_⟩
  intro ss hss
  have hh := Holds_runSteps path ⟨path, pid⟩ ss _ hstart hss
  refine ⟨hh.1, hh.2, ?_, ?_, ?_⟩
  · intro pid2
    rw [ExecuteFile_ok]
    exact Registry.entries_set_self _ _ _
  · intro kill hk
    exact (Registry.get_eq_none_iff _ _).1 (StopProcess_ok_get kill _ path hk)
  · unfold waiterStep
    rw [if_pos hh.2]
    exact Registry.entries_delete_self _ _

/-- C2, amended, at the empty registry, with a launch and a stop on another
path in between. -/
theorem C2_registry_entry_lifecycle_witness :
    World.init.registry.get exePath = none ∧
    (runSteps (ExecuteFile (.ok 7) World.init exePath).2
      [.start dbPath 8, .stop exePath killFails, .stop dbPath killOk]).registry.entries exePath
      = [⟨exePath, 7⟩] :=
  ⟨rfl, ((C2_registry_entry_lifecycle World.init exePath 7 rfl).2.2.2
    [.start dbPath 8, .stop exePath killFails, .stop dbPath killOk]
    (by
      intro s hs
      simp only [List.mem_cons, List.mem_singleton, List.not_mem_nil, or_false] at hs
      rcases hs with h | h | h
      · subst h; show dbPath ≠ exePath; decide
      · subst h; exact Or.inr rfl
      · subst h; exact Or.inl (by decide))).1⟩

/-- C9: for every registry that holds an entry `h1` for `path`, a second
`ExecuteFile(path)` whose launch succeeds, with handle `h2`, returns `nil`,
prints nothing but the usual "Started" line, and leaves exactly one entry
for `path`, which holds `h2`. Where a `StopProcess(path)` before the second
launch signals `h1`, a `StopProcess(path)` that follows it sends its
kill signal to `h2` and to no other process, so never to `h1`, which is no
longer stored under `path`. -/
theorem C9_register_overwrites (kill : Cmd → Option GoError) (w : World) (path : String)
    (h1 : Cmd) (pid2 : Nat) (h : w.registry.get path = some h1) :
    kills (StopProcess kill w path).2.trace = kills w.trace ++ [h1] ∧
    (ExecuteFile (.ok pid2) w path).1 = none ∧
    (ExecuteFile (.ok pid2) w path).2.trace = w.trace ++ [.call "ExecuteFile" path,
      .spawn path, .print ("Started process for " ++ path ++ " with PID: "
        ++ toString pid2 ++ "\n")] ∧
    (ExecuteFile (.ok pid2) w path).2.registry.entries path = [⟨path, pid2⟩] ∧
    (ExecuteFile (.ok pid2) w path).2.registry.get path = some ⟨path, pid2⟩ ∧
    kills (StopProcess kill (ExecuteFile (.ok pid2) w path).2 path).2.trace
      = kills w.trace ++ [⟨path, pid2⟩] ∧
    (h1 ≠ ⟨path, pid2⟩ →
      h1 ∉ (ExecuteFile (.ok pid2) w path).2.registry.entries path ∧
      h1 ∉ (kills (StopProcess kill (ExecuteFile (.ok pid2) w path).2 path).2.trace).drop
        (kills w.trace).length) := by
  have hget : (ExecuteFile (.ok pid2) w path).2.registry.get path = some ⟨path, pid2⟩ := by
    rw [ExecuteFile_ok]; exact Registry.get_set_self _ _ _
  have hent : (ExecuteFile (.ok pid2) w path).2.registry.entries path = [⟨path, pid2⟩] := by
    rw [ExecuteFile_ok]; exact Registry.entries_set_self _ _ _
  have hk : kills (StopProcess kill (ExecuteFile (.ok pid2) w path).2 path).2.trace
      = kills w.trace ++ [⟨path, pid2⟩] := by
    cases hkc : kill ⟨path, pid2⟩ with
    | some err =>
      rw [StopProcess_of_kill_fails kill _ path _ err hget hkc, ExecuteFile_ok]
      simp [World.emit, kills_append, kills]
    | none =>
      rw [StopProcess_of_kill_ok kill _ path _ hget hkc, ExecuteFile_ok]
      simp [World.emit, kills_append, kills]
  have hk1 : kills (StopProcess kill w path).2.trace = kills w.trace ++ [h1] := by
    cases hkc : kill h1 with
    | some err =>
      rw [StopProcess_of_kill_fails kill _ path _ err h hkc]
      simp [World.emit, kills_append, kills]
    | none =>
      rw [StopProcess_of_kill_ok kill _ path _ h hkc]
      simp [World.emit, kills_append, kills]
  refine ⟨hk1, by rw [ExecuteFile_ok], by rw [ExecuteFile_ok], hent, hget, hk, ?_⟩
  intro hne
  rw [hent, hk]
  simp [hne]

/-- C9 at a registry whose entry for the path holds process 7, with a second
launch that yields process 8. -/
theorem C9_register_overwrites_witness :
    (oneEntry exePath 7).registry.get exePath = some ⟨exePath, 7⟩ ∧
    (ExecuteFile (.ok 8) (oneEntry exePath 7) exePath).2.registry.entries exePath
      = [⟨exePath, 8⟩] ∧
    kills (StopProcess killOk (ExecuteFile (.ok 8) (oneEntry exePath 7) exePath).2
      exePath).2.trace = [⟨exePath, 8⟩] :=
  ⟨by decide,
    (C9_register_overwrites killOk (oneEntry exePath 7) exePath ⟨exePath, 7⟩ 8
      (by decide)).2.2.2.1,
    (C9_register_overwrites killOk (oneEntry exePath 7) exePath ⟨exePath, 7⟩ 8
      (by decide)).2.2.2.2.2.1⟩

/-- C10: the goroutine of `ExecuteFile` removes by path, not by handle. For
every registry state, when the exit of a process started at `path` is
observed, whatever is stored under `path` is deleted (and nothing else).
In particular, after `ExecuteFile(path)` yields `h1` and `ExecuteFile(path)`
yields `h2`, the goroutine of `h1` is pending, and once it has observed the
exit of `h1` the registry holds no entry for `path`, although the goroutine
of `h2` is still pending; a following `StopProcess(path)` takes the "not
found" branch, returns `nil` and sends no kill signal. -/
theorem C10_waiter_removes_by_path (kill : Cmd → Option GoError) (w : World)
    (path : String) (pid1 pid2 : Nat) :
    (∀ (v : World) (c : Cmd),
      (waiterExit v ⟨c, path⟩).registry = v.registry.delete path ∧
      (waiterExit v ⟨c, path⟩).registry.entries path = [] ∧
      ∀ j, j ≠ path → (waiterExit v ⟨c, path⟩).registry.entries j = v.registry.entries j) ∧
    (ExecuteFile (.ok pid2) (ExecuteFile (.ok pid1) w path).2 path).2.registry.entries path
      = [⟨path, pid2⟩] ∧
    (⟨⟨path, pid1⟩, path⟩ : Waiter)
      ∈ (ExecuteFile (.ok pid2) (ExecuteFile (.ok pid1) w path).2 path).2.waiters ∧
    (waiterStep (ExecuteFile (.ok pid2) (ExecuteFile (.ok pid1) w path).2 path).2
      ⟨⟨path, pid1⟩, path⟩).registry.entries path = [] ∧
    (⟨⟨path, pid2⟩, path⟩ : Waiter)
      ∈ (waiterStep (ExecuteFile (.ok pid2) (ExecuteFile (.ok pid1) w path).2 path).2
        ⟨⟨path, pid1⟩, path⟩).waiters ∧
    (StopProcess kill (waiterStep (ExecuteFile (.ok pid2)
      (ExecuteFile (.ok pid1) w path).2 path).2 ⟨⟨path, pid1⟩, path⟩) path).1 = none ∧
    (StopProcess kill (waiterStep (ExecuteFile (.ok pid2)
      (ExecuteFile (.ok pid1) w path).2 path).2 ⟨⟨path, pid1⟩, path⟩) path).2.trace
      = (ExecuteFile (.ok pid2) (ExecuteFile (.ok pid1) w path).2 path).2.trace
        ++ [.call "StopProcess" path, .print ("Process not found for path: " ++ path
          ++ ". It might have already terminated.\n")] ∧
    kills (StopProcess kill (waiterStep (ExecuteFile (.ok pid2)
      (ExecuteFile (.ok pid1) w path).2 path).2 ⟨⟨path, pid1⟩, path⟩) path).2.trace
      = kills w.trace := by
  have hmem : (⟨⟨path, pid1⟩, path⟩ : Waiter)
      ∈ (ExecuteFile (.ok pid2) (ExecuteFile (.ok pid1) w path).2 path).2.waiters := by
    simp [ExecuteFile_ok]
  have hstep : waiterStep (ExecuteFile (.ok pid2) (ExecuteFile (.ok pid1) w path).2 path).2
      ⟨⟨path, pid1⟩, path⟩
      = waiterExit (ExecuteFile (.ok pid2) (ExecuteFile (.ok pid1) w path).2 path).2
        ⟨⟨path, pid1⟩, path⟩ := by
    unfold waiterStep
    rw [if_pos hmem]
  have hget : (waiterExit (ExecuteFile (.ok pid2) (ExecuteFile (.ok pid1) w path).2 path).2
      ⟨⟨path, pid1⟩, path⟩).registry.get path = none :=
    Registry.get_delete_self _ _
  refine ⟨?_, ?_, hmem, ?_, ?_, ?_, ?_, ?_⟩
  · intro v c
    exact ⟨rfl, Registry.entries_delete_self _ _,
      fun j hj => Registry.entries_delete_of_ne _ hj⟩
  · rw [ExecuteFile_ok]; exact Registry.entries_set_self _ _ _
  · rw [hstep]; exact Registry.entries_delete_self _ _
  · rw [hstep]
    simp only [waiterExit, ExecuteFile_ok]
    by_cases hp : pid1 = pid2
    · subst hp
      apply List.count_pos_iff.1
      rw [List.count_erase_self]
      simp [List.count_append]
    · have hne : (⟨⟨path, pid2⟩, path⟩ : Waiter) ≠ ⟨⟨path, pid1⟩, path⟩ := by
        intro h; apply hp; cases h; rfl
      exact (List.mem_erase_of_ne hne).2 (by simp)
  · rw [hstep, StopProcess_of_get_none kill _ path hget]
  · rw [hstep, StopProcess_of_get_none kill _ path hget]
    simp [World.emit, waiterExit]
  · rw [hstep, StopProcess_of_get_none kill _ path hget]
    simp [World.emit, waiterExit, ExecuteFile_ok, kills_append, kills]

/-! ## The claims on main -/

/-- C4: whatever the results of the system calls and the schedule of the
goroutines, `main` exits with code 1 if and only if the initial
`ExecuteFile(exePath)` returns an error, and with code 0 otherwise. When the
launch fails, `main` prints the failure and calls `os.Exit(1)`: there is no
delay, no `ExecuteCommandSync`, no `StopProcess`, no kill signal and no file
removal, and the registry is untouched. -/
theorem C4_main_exit_code (startRes : Except GoError Nat) (runRes : Option GoError)
    (kill : Cmd → Option GoError) (removeRes : Option GoError)
    (sched : Nat → List Waiter) (w : World) :
    ((main startRes runRes kill removeRes sched w).1 = 1
      ↔ (ExecuteFile startRes w exePath).1 ≠ none) ∧
    ((ExecuteFile startRes w exePath).1 = none →
      (main startRes runRes kill removeRes sched w).1 = 0) ∧
    ((ExecuteFile startRes w exePath).1 ≠ none →
      ∃ err, startRes = .error err ∧
        (main startRes runRes kill removeRes sched w).2.trace
          = w.trace ++ [.call "ExecuteFile" exePath, .spawn exePath,
            .print ("Failed to start: "
              ++ GoError.Error (.wrap "failed to start file: " err) ++ "\n"),
            .exit 1] ∧
        steps (main startRes runRes kill removeRes sched w).2.trace
          = steps w.trace ++ [.call "ExecuteFile" exePath, .spawn exePath] ∧
        kills (main startRes runRes kill removeRes sched w).2.trace = kills w.trace ∧
        (main startRes runRes kill removeRes sched w).2.registry = w.registry ∧
        (main startRes runRes kill removeRes sched w).2.waiters = w.waiters) := by
  cases startRes with
  | ok pid =>
    have h1 : (ExecuteFile (.ok pid) w exePath).1 = none := by rw [ExecuteFile_ok]
    have h2 : (main (.ok pid) runRes kill removeRes sched w).1 = 0 := by
      simp [main, ExecuteFile_ok]
    refine ⟨?_, fun _ => h2, fun h => absurd h1 h⟩
    rw [h2, h1]
    simp
  | error err =>
    have h1 : (ExecuteFile (.error err) w exePath).1 ≠ none := by
      rw [ExecuteFile_error]; simp
    have h2 : main (.error err) runRes kill removeRes sched w
        = (1, World.emit (w.emit [.call "ExecuteFile" exePath, .spawn exePath])
          [.print ("Failed to start: " ++ GoError.Error (.wrap "failed to start file: " err)
            ++ "\n"), .exit 1]) := rfl
    refine ⟨?_, fun h => absurd h h1, fun _ => ⟨err, rfl, ?_, ?_, ?_, ?_, ?_⟩⟩
    · rw [h2]
      simp [h1]
    · rw [h2]
      simp [World.emit, GoError.Error]
    · rw [h2]
      simp [World.emit, steps, Event.isStep]
    · rw [h2]
      simp [World.emit, kills]
    · rw [h2]; rfl
    · rw [h2]; rfl

/-- C4 at a launch that fails and at one that succeeds. -/
theorem C4_main_exit_code_witness :
    (main (.error (.os "no such file")) none killOk none (fun _ => []) World.init).1 = 1 ∧
    (main (.ok 7) (some (.os "exit status 1")) killFails (some (.os "no such file"))
      (fun _ => []) World.init).1 = 0 :=
  ⟨(C4_main_exit_code (.error (.os "no such file")) none killOk none (fun _ => [])
      World.init).1.2 (by decide),
    (C4_main_exit_code (.ok 7) (some (.os "exit status 1")) killFails
      (some (.os "no such file")) (fun _ => []) World.init).2.1 (by decide)⟩

/-- C5: when the launch succeeds, for every result of the helper command, of
the kill signal and of the file removal, and every schedule of the
goroutines, `main` calls `StopProcess(exePath)` exactly once, then removes
`dbPath` exactly once, these being its last two workflow steps, prints
"All done." last and returns with exit code 0. -/
theorem C5_main_never_skips (pid : Nat) (runRes : Option GoError)
    (kill : Cmd → Option GoError) (removeRes : Option GoError)
    (sched : Nat → List Waiter) (w : World) :
    (main (.ok pid) runRes kill removeRes sched w).1 = 0 ∧
    (main (.ok pid) runRes kill removeRes sched w).2.trace.count
      (.call "StopProcess" exePath) = w.trace.count (.call "StopProcess" exePath) + 1 ∧
    (main (.ok pid) runRes kill removeRes sched w).2.trace.count (.remove dbPath)
      = w.trace.count (.remove dbPath) + 1 ∧
    (∃ before, steps (main (.ok pid) runRes kill removeRes sched w).2.trace
      = steps w.trace ++ before ++ [.call "StopProcess" exePath, .remove dbPath]) ∧
    (main (.ok pid) runRes kill removeRes sched w).2.trace.getLast?
      = some (.print "All done.\n") := by
  have hs := steps_main_ok pid runRes kill removeRes sched w
  refine ⟨by simp [main, ExecuteFile_ok], ?_, ?_, ?_, ?_⟩
  · rw [count_eq_count_steps (.call "StopProcess" exePath) _ rfl, hs,
      count_eq_count_steps (.call "StopProcess" exePath) w.trace rfl, List.count_append]
    congr 1
  · rw [count_eq_count_steps (.remove dbPath) _ rfl, hs,
      count_eq_count_steps (.remove dbPath) w.trace rfl, List.count_append]
    congr 1
  · exact ⟨[.call "ExecuteFile" exePath, .spawn exePath, .sleep (2 * Second),
      .call "ExecuteCommandSync" uv, .runShell uv], by rw [hs]; simp⟩
  · simp [main, ExecuteFile_ok, World.emit]

/-- C8: in every run of `main` whose launch succeeds, whatever the other
results and the schedule of the goroutines, what `main` does is, in this
order and with nothing in between: the launch; the call of `time.Sleep` for
2 seconds and its return; the synchronous command, from the call of
`cmd.Run` to its return with success or an error, and the line printed on
an error; the termination, which is the call of `StopProcess` and either the
"not found" line or the kill signal to the launched process with the line
for its result; the file removal with the line for its error. So the command
is started after the delay has returned, `StopProcess` is called and the
kill signal is sent after the command has returned, and every step is over
before the next begins. -/
theorem C8_main_linear_order (pid : Nat) (runRes : Option GoError)
    (kill : Cmd → Option GoError) (removeRes : Option GoError)
    (sched : Nat → List Waiter) (w : World) :
    ∃ stopEvs : List Event,
      (main (.ok pid) runRes kill removeRes sched w).2.trace
        = w.trace
          ++ [.call "ExecuteFile" exePath, .spawn exePath,
              .print ("Started process for " ++ exePath ++ " with PID: "
                ++ toString pid ++ "\n")]
          ++ [.sleep 2000000000, .sleepReturn 2000000000]
          ++ [.print "Running test script...\n", .call "ExecuteCommandSync" uv,
              .runShell uv, .runReturn uv runRes]
          ++ (match runRes with
              | some err => [.print ("Python script failed: "
                  ++ GoError.Error (.wrap ("command failed: " ++ uv ++ ": ") err) ++ "\n")]
              | none => [])
          ++ .call "StopProcess" exePath :: stopEvs
          ++ [.remove dbPath]
          ++ (match removeRes with
              | some err => [.print ("Failed to remove Boltbase.db: " ++ err.Error ++ "\n")]
              | none => [])
          ++ [.print "All done.\n"] ∧
      (stopEvs = [.print ("Process not found for path: " ++ exePath
          ++ ". It might have already terminated.\n")] ∨
        (∃ err, kill ⟨exePath, pid⟩ = some err ∧
          stopEvs = [.kill ⟨exePath, pid⟩, .print ("Failed to stop Boltbase process: "
            ++ GoError.Error (.wrap "failed to kill process: " err) ++ "\n")]) ∨
        (kill ⟨exePath, pid⟩ = none ∧
          stopEvs = [.kill ⟨exePath, pid⟩,
            .print ("Killed process for " ++ exePath ++ "\n")])) := by
  obtain ⟨stopEvs, h, hs⟩ := main_ok_trace pid runRes kill removeRes sched w
  refine ⟨stopEvs, ?_, hs⟩
  rw [h]
  cases runRes <;> cases removeRes <;> simp [logLines, GoError.Error]

end GoStarter
